import Mathlib

/-!
Verification of the Buildroot distro plugin `boards/default/distros/br/br.py`
of FireMarshal.  The development shallowly embeds the plugin's pure logic:

* `md5` is a byte-level model of `hashlib.md5` (RFC 1321), since `hashOpts`
  fingerprints fragment files with it;
* the file system is modelled as a map from paths to optional byte contents
  (`none` meaning the file is missing/unreadable, i.e. Python raises);
* `hashOpts`, `mergeOpts`, `Builder.init`, `configure`, `buildBaseImage`,
  `generateBootScriptOverlay` and `stripUart` follow the Python source
  line by line, with effects (file writes, subprocess runs, exceptions)
  made explicit as data.
-/

set_option maxRecDepth 100000

/-- Byte sequences: lists of naturals, each intended to be `< 256`. -/
abbrev Bytes := List Nat

/-- File-system model: a path is mapped to the bytes of the file, or to
`none` when opening/reading the file fails (Python raises `IOError`). -/
def FS := String → Option Bytes

/-- MD5 per-round additive constants (RFC 1321), as used by `hashlib.md5`. -/
def md5K : List Nat :=
  [0xd76aa478, 0xe8c7b756, 0x242070db, 0xc1bdceee,
   0xf57c0faf, 0x4787c62a, 0xa8304613, 0xfd469501,
   0x698098d8, 0x8b44f7af, 0xffff5bb1, 0x895cd7be,
   0x6b901122, 0xfd987193, 0xa679438e, 0x49b40821,
   0xf61e2562, 0xc040b340, 0x265e5a51, 0xe9b6c7aa,
   0xd62f105d, 0x02441453, 0xd8a1e681, 0xe7d3fbc8,
   0x21e1cde6, 0xc33707d6, 0xf4d50d87, 0x455a14ed,
   0xa9e3e905, 0xfcefa3f8, 0x676f02d9, 0x8d2a4c8a,
   0xfffa3942, 0x8771f681, 0x6d9d6122, 0xfde5380c,
   0xa4beea44, 0x4bdecfa9, 0xf6bb4b60, 0xbebfbc70,
   0x289b7ec6, 0xeaa127fa, 0xd4ef3085, 0x04881d05,
   0xd9d4d039, 0xe6db99e5, 0x1fa27cf8, 0xc4ac5665,
   0xf4292244, 0x432aff97, 0xab9423a7, 0xfc93a039,
   0x655b59c3, 0x8f0ccc92, 0xffeff47d, 0x85845dd1,
   0x6fa87e4f, 0xfe2ce6e0, 0xa3014314, 0x4e0811a1,
   0xf7537e82, 0xbd3af235, 0x2ad7d2bb, 0xeb86d391]

/-- MD5 per-round left-rotation amounts (RFC 1321). -/
def md5S : List Nat :=
  [7, 12, 17, 22, 7, 12, 17, 22, 7, 12, 17, 22, 7, 12, 17, 22,
   5, 9, 14, 20, 5, 9, 14, 20, 5, 9, 14, 20, 5, 9, 14, 20,
   4, 11, 16, 23, 4, 11, 16, 23, 4, 11, 16, 23, 4, 11, 16, 23,
   6, 10, 15, 21, 6, 10, 15, 21, 6, 10, 15, 21, 6, 10, 15, 21]

/-- Rotate a 32-bit word (`x < 2^32`) left by `c` bits. -/
def rotl32 (x c : Nat) : Nat :=
  ((x <<< c) % 4294967296) ||| (x >>> (32 - c))

/-- The MD5 nonlinear round function, selected by the round index `i`. -/
def md5F (i b c d : Nat) : Nat :=
  if i < 16 then (b &&& c) ||| ((b ^^^ 4294967295) &&& d)
  else if i < 32 then (d &&& b) ||| ((d ^^^ 4294967295) &&& c)
  else if i < 48 then b ^^^ c ^^^ d
  else c ^^^ (b ||| (d ^^^ 4294967295))

/-- The MD5 message-word index schedule, selected by the round index `i`. -/
def md5G (i : Nat) : Nat :=
  if i < 16 then i
  else if i < 32 then (5 * i + 1) % 16
  else if i < 48 then (3 * i + 5) % 16
  else (7 * i) % 16

/-- One MD5 round: transforms the state `(a, b, c, d)` using message words `M`. -/
def md5Round (M : List Nat) (st : Nat × Nat × Nat × Nat) (i : Nat) :
    Nat × Nat × Nat × Nat :=
  let a := st.1
  let b := st.2.1
  let c := st.2.2.1
  let d := st.2.2.2
  let f := (md5F i b c d + a + md5K.getD i 0 + M.getD (md5G i) 0) % 4294967296
  (d, (b + rotl32 f (md5S.getD i 0)) % 4294967296, b, c)

/-- Pack bytes into little-endian 32-bit words, 4 bytes per word. -/
def bytesToWords : List Nat → List Nat
  | b0 :: b1 :: b2 :: b3 :: rest =>
      (b0 + 256 * (b1 + 256 * (b2 + 256 * b3))) :: bytesToWords rest
  | _ => []

/-- Process one 64-byte chunk: run the 64 rounds and add the result into
the incoming state, all modulo `2^32`. -/
def md5Chunk (st : Nat × Nat × Nat × Nat) (chunk : List Nat) :
    Nat × Nat × Nat × Nat :=
  let r := (List.range 64).foldl (md5Round (bytesToWords chunk)) st
  ((st.1 + r.1) % 4294967296, (st.2.1 + r.2.1) % 4294967296,
   (st.2.2.1 + r.2.2.1) % 4294967296, (st.2.2.2 + r.2.2.2) % 4294967296)

/-- Little-endian encoding of `n` into exactly `k` bytes (truncating). -/
def toLEBytes : Nat → Nat → List Nat
  | _, 0 => []
  | n, k + 1 => (n % 256) :: toLEBytes (n / 256) k

/-- MD5 padding: append `0x80`, zero-fill to 56 mod 64, then the 64-bit
little-endian bit length of the original message. -/
def md5Pad (msg : List Nat) : List Nat :=
  msg ++ 128 :: List.replicate ((119 - msg.length % 64) % 64) 0
      ++ toLEBytes (msg.length * 8) 8

/-- Fold `md5Chunk` over the 64-byte chunks of `bs`; `fuel` bounds the
number of chunks (structural recursion, so the kernel can evaluate it). -/
def md5Blocks : Nat → (Nat × Nat × Nat × Nat) → List Nat → Nat × Nat × Nat × Nat
  | 0, st, _ => st
  | _ + 1, st, [] => st
  | fuel + 1, st, bs => md5Blocks fuel (md5Chunk st (bs.take 64)) (bs.drop 64)

/-- MD5 digest of a byte sequence: 16 bytes, per RFC 1321.  This models the
single digest context of `hashOpts` (`hashlib.md5`): feeding the files one
`h.update` at a time is the digest of their concatenation. -/
def md5 (msg : List Nat) : List Nat :=
  let padded := md5Pad msg
  let st := md5Blocks padded.length
    (0x67452301, 0xefcdab89, 0x98badcfe, 0x10325476) padded
  toLEBytes st.1 4 ++ toLEBytes st.2.1 4 ++ toLEBytes st.2.2.1 4
    ++ toLEBytes st.2.2.2 4

/-- The sixteen lowercase hexadecimal digit characters. -/
def hexDigits : List Char := "0123456789abcdef".data

/-- Lowercase hexadecimal digit for `n % 16`. -/
def hexDigit (n : Nat) : Char := hexDigits.getD (n % 16) '0'

/-- Two lowercase hex characters per byte, in order (Python `bytes.hex()`). -/
def bytesToHexChars : List Nat → List Char
  | [] => []
  | b :: rest => hexDigit (b / 16) :: hexDigit (b % 16) :: bytesToHexChars rest

/-- Lowercase hexadecimal string of a byte sequence (Python `bytes.hex()`). -/
def bytesToHex (bs : List Nat) : String := String.mk (bytesToHexChars bs)

/-- A `['distro']['opts']` dictionary.  `configs = none` models the absence
of the `'configs'` key (`'configs' in opts` is false); `extra` models any
other key/value entries of the dictionary, which `hashOpts` never reads. -/
structure Opts where
  configs : Option (List String)
  extra : List (String × String)
deriving DecidableEq

/-- Read the fragment files in order, concatenating their bytes; the first
unreadable file aborts with an error naming it (Python: `open` raises). -/
def readConfigs (fs : FS) : List String → Except String Bytes
  | [] => .ok []
  | c :: rest =>
    match fs c with
    | none => .error c
    | some bytes =>
      match readConfigs fs rest with
      | .ok bs => .ok (bytes ++ bs)
      | .error e => .error e

/-- Model of `hashOpts(opts)`: if the `'configs'` key is present, feed every
fragment file through one md5 context and return the first two digest bytes
as lowercase hex; otherwise return `None`.  A file-read failure propagates
as an `Except.error`. -/
def hashOpts (opts : Opts) (fs : FS) : Except String (Option String) :=
  match opts.configs with
  | some cs =>
    match readConfigs fs cs with
    | .ok bs => .ok (some (bytesToHex ((md5 bs).take 2)))
    | .error e => .error e
  | none => .ok none

/-- Model of `mergeOpts(base, new)`: builds a fresh dictionary whose only
key is `'configs'`, bound to `base['configs'] + new['configs']`.  `none`
models the `KeyError` raised when either input lacks the key.  The model is
a pure function: it performs no I/O and cannot mutate its arguments. -/
def mergeOpts (base new : Opts) : Option Opts :=
  match base.configs, new.configs with
  | some b, some n => some ⟨some (b ++ n), []⟩
  | _, _ => none

/-- Buildroot name for a fingerprint: `br.<hash>` when present, else `br`. -/
def brName : Option String → String
  | some h => "br." ++ h
  | none => "br"

/-- A `Builder`, as constructed by `Builder.__init__`. -/
structure Builder where
  opts : Opts
  name : String
  outputImg : String
deriving DecidableEq

/-- Model of `Builder.__init__(opts)`: fingerprints the options, derives the
name and the output image path `<image-dir>/<name>.img`.  A fragment-read
failure inside `hashOpts` propagates. -/
def Builder.init (opts : Opts) (fs : FS) (imageDir : String) :
    Except String Builder :=
  match hashOpts opts fs with
  | .error e => .error e
  | .ok hashed => .ok ⟨opts, brName hashed, imageDir ++ "/" ++ (brName hashed ++ ".img")⟩

/-- Toolchain versions discovered via `wlutil.getToolVersions()`. -/
structure ToolVersions where
  linuxMaj : String
  linuxMin : String
  gcc : String
deriving DecidableEq

/-- An observable effect performed by `configure()`. -/
inductive Event where
  | writeFile : String → String → Event
  | runCmd : List String → String → Event
  | copyFile : String → String → Event
deriving DecidableEq

/-- The exact contents written to the `brToolKfrag` fragment by
`configure()`, line by line as in the source. -/
def toolFragContents (tv : ToolVersions) (cpuCount : Nat) : String :=
  "BR2_TOOLCHAIN_EXTERNAL_HEADERS_" ++ tv.linuxMaj ++ "_" ++ tv.linuxMin ++ "=y\n" ++
  "BR2_TOOLCHAIN_HEADERS_AT_LEAST_" ++ tv.linuxMaj ++ "_" ++ tv.linuxMin ++ "=y\n" ++
  "BR2_TOOLCHAIN_HEADERS_AT_LEAST=\"" ++ tv.linuxMaj ++ "." ++ tv.linuxMin ++ "\"\n" ++
  "BR2_TOOLCHAIN_GCC_AT_LEAST_" ++ tv.gcc ++ "=y\n" ++
  "BR2_TOOLCHAIN_GCC_AT_LEAST=\"" ++ tv.gcc ++ "\"\n" ++
  "BR2_TOOLCHAIN_EXTERNAL_GCC_" ++ tv.gcc ++ "=y\n" ++
  "BR2_JLEVEL=" ++ toString cpuCount ++ "\n"

/-- Model of `Builder.configure()` as the ordered trace of its effects:
write the toolchain fragment, run `make defconfig`, capture `.config` as
the baseline fragment and finally run `merge_config.sh` over the fragment
list `[defconfig, toolKfrag] + opts['configs']`.  `none` models the
`KeyError` when the options carry no `'configs'` key. -/
def configure (brDir genDir : String) (tv : ToolVersions) (cpuCount : Nat)
    (opts : Opts) : Option (List Event) :=
  match opts.configs with
  | none => none
  | some cs =>
    let toolKfrag := genDir ++ "/brToolKfrag"
    let defconfig := genDir ++ "/brDefConfig"
    some [Event.writeFile toolKfrag (toolFragContents tv cpuCount),
          Event.runCmd ["make", "defconfig"] (brDir ++ "/buildroot"),
          Event.copyFile (brDir ++ "/buildroot/.config") defconfig,
          Event.runCmd ((brDir ++ "/merge_config.sh") :: defconfig :: toolKfrag :: cs)
            (brDir ++ "/buildroot")]

/-- A Python exception, distinguishing `wlutil.SubmoduleError` from every
other exception class. -/
inductive PyErr where
  | submoduleError : String → PyErr
  | otherError : String → PyErr
deriving DecidableEq

/-- Outcomes of the four steps inside `buildBaseImage`'s `try` block, in
program order: `wlutil.checkSubmodule`, `self.configure()`, the `make`
invocation and the `shutil.move` relocation. -/
structure BuildSteps where
  checkSubmodule : Except PyErr Unit
  configureStep : Except PyErr Unit
  makeStep : Except PyErr Unit
  moveStep : Except PyErr Unit

/-- Result of `buildBaseImage`: normal return (`None` in Python) or a
`doit.exceptions.TaskFailed` value carrying the underlying error. -/
inductive TaskOutcome where
  | done : TaskOutcome
  | taskFailed : String → TaskOutcome
deriving DecidableEq

/-- The `try` block of `buildBaseImage`: run the four steps in order,
stopping at the first exception. -/
def trySteps (s : BuildSteps) : Except PyErr Unit :=
  match s.checkSubmodule with
  | .error e => .error e
  | .ok _ =>
    match s.configureStep with
    | .error e => .error e
    | .ok _ =>
      match s.makeStep with
      | .error e => .error e
      | .ok _ => s.moveStep

/-- Model of `Builder.buildBaseImage()`: the `try` block followed by
`except wlutil.SubmoduleError as e: return doit.exceptions.TaskFailed(e)`.
Only `SubmoduleError` is caught; every other exception propagates as
`Except.error`. -/
def buildBaseImage (s : BuildSteps) : Except PyErr TaskOutcome :=
  match trySteps s with
  | .ok _ => .ok .done
  | .error (.submoduleError m) => .ok (.taskFailed m)
  | .error (.otherError m) => .error (.otherError m)

/-- A file inside the overlay tree: its contents and its permission bits. -/
structure OverlayFile where
  content : String
  mode : Nat
deriving DecidableEq

/-- The overlay tree state touched by `generateBootScriptOverlay`: the file
at `overlay/firesim.sh` (or `none` when absent) and the contents of
`overlay/etc/init.d/S99run` (or `none` when never written). -/
structure OverlayState where
  firesimSh : Option OverlayFile
  s99run : Option String
deriving DecidableEq

/-- Result of `generateBootScriptOverlay`: normal return of the overlay
path with the new overlay state, or a propagated `FileNotFoundError` from
`Path.unlink()` leaving the state it was raised in. -/
inductive OverlayResult where
  | ok : OverlayState → String → OverlayResult
  | fileNotFound : OverlayState → OverlayResult
deriving DecidableEq

/-- The `initTemplate.substitute(args=...)` result: the literal `S99run`
init-wrapper text with `$args` replaced by `args` and `$$` by `$`. -/
def initTemplate (args : String) : String :=
  "#!/bin/sh\n\nSYSLOGD_ARGS=-n\nKLOGD_ARGS=-n\n\nstart() \x7b\n    echo \"launching firesim workload run/command\" && /firesim.sh "
  ++ args ++
  " && echo \"firesim workload run/command done\"\n\x7d\n\ncase \"$1\" in\n  start)\n  start\n  ;;\n  stop)\n  #stop\n  ;;\n  restart|reload)\n  start\n  ;;\n  *)\n  echo \"Usage: $0 \x7bstart|stop|restart\x7d\"\n  exit 1\nesac\n\nexit"

/-- The argument string substituted into the template: `''` when `args` is
`None`, else `' '.join(args)`. -/
def argsJoin : Option (List String) → String
  | none => ""
  | some a => String.intercalate " " a

/-- Overwrite `overlay/etc/init.d/S99run` with the substituted template. -/
def writeS99run (st : OverlayState) (args : Option (List String)) : OverlayState :=
  ⟨st.firesimSh, some (initTemplate (argsJoin args))⟩

/-- Model of `Builder.generateBootScriptOverlay(script, args)`.  The
`script` argument is modelled by the contents of the script file.  With a
script: copy it to `overlay/firesim.sh` and `chmod 0o755`.  Without one:
`unlink()` the existing file — raising `FileNotFoundError` when it is
absent — then `touch()` an empty placeholder and `chmod 0o755`.  On the
non-raising paths the `S99run` wrapper is then regenerated and the overlay
path returned. -/
def generateBootScriptOverlay (overlayDir : String) (script : Option String)
    (args : Option (List String)) (st : OverlayState) : OverlayResult :=
  match script with
  | some s =>
    .ok (writeS99run ⟨some ⟨s, 0o755⟩, st.s99run⟩ args) overlayDir
  | none =>
    match st.firesimSh with
    | none => .fileNotFound st
    | some _ =>
      .ok (writeS99run ⟨some ⟨"", 0o755⟩, st.s99run⟩ args) overlayDir

/-- Python `re.match(pat, l)` for the literal sentinel patterns used by
`stripUart`: a match at the beginning of the line. -/
def reMatch (pat l : String) : Bool := pat.data.isPrefixOf l.data

/-- Start sentinel echoed by the init wrapper before the workload runs. -/
def startSentinel : String := "launching firesim workload run/command"

/-- Completion sentinel echoed by the init wrapper after the workload. -/
def doneSentinel : String := "firesim workload run/command done"

/-- The loop of `stripUart`, with `inBody` tracking whether the start
sentinel has been seen; a line matching the completion sentinel breaks. -/
def stripUartGo : List String → Bool → List String
  | [], _ => []
  | l :: rest, inBody =>
    if inBody then
      if reMatch doneSentinel l then []
      else l :: stripUartGo rest true
    else
      if reMatch startSentinel l then stripUartGo rest true
      else stripUartGo rest false

/-- Model of `Builder.stripUart(lines)`. -/
def stripUart (lines : List String) : List String := stripUartGo lines false

/-- Concatenated contents of the fragment files of `cs`, in order, reading
absent files as empty (only used under the hypothesis that all are
readable). -/
def filesBytes (fs : FS) : List String → Bytes
  | [] => []
  | c :: rest => (fs c).getD [] ++ filesBytes fs rest

/-- The per-fragment file contents a Builder's options denote: `none` when
the options carry no fragment list, else the ordered list of optional file
contents. -/
def fragContents (opts : Opts) (fs : FS) : Option (List (Option Bytes)) :=
  opts.configs.map (fun cs => cs.map fs)

/-- Substring test on character lists: some suffix of `hay` starts with
`needle`. -/
def hasSub (needle hay : List Char) : Bool :=
  hay.tails.any (fun t => needle.isPrefixOf t)

/-- Substring test on strings. -/
def containsText (hay needle : String) : Bool := hasSub needle.data hay.data

/-- Little-endian encoding always yields the requested number of bytes. -/
theorem toLEBytes_length (n k : Nat) : (toLEBytes n k).length = k := by
  induction k generalizing n with
  | zero => rfl
  | succ k ih => simp [toLEBytes, ih]

/-- The md5 digest is always 16 bytes long. -/
theorem md5_length (msg : List Nat) : (md5 msg).length = 16 := by
  simp [md5, toLEBytes_length]

/-- Hex encoding yields two characters per byte. -/
theorem bytesToHexChars_length (bs : List Nat) :
    (bytesToHexChars bs).length = 2 * bs.length := by
  induction bs with
  | nil => rfl
  | cons b rest ih => simp [bytesToHexChars, ih]; omega

/-- Every character produced by `hexDigit` is a lowercase hex digit. -/
theorem hexDigit_mem (n : Nat) : hexDigit n ∈ hexDigits := by
  have h : n % 16 < hexDigits.length := Nat.mod_lt _ (by decide)
  unfold hexDigit
  rw [List.getD_eq_getElem hexDigits '0' h]
  exact List.getElem_mem h

/-- Every character of a hex encoding is a lowercase hex digit. -/
theorem bytesToHexChars_mem (bs : List Nat) :
    ∀ ch ∈ bytesToHexChars bs, ch ∈ hexDigits := by
  induction bs with
  | nil => intro ch h; simp [bytesToHexChars] at h
  | cons b rest ih =>
    intro ch h
    simp only [bytesToHexChars, List.mem_cons] at h
    rcases h with rfl | rfl | h
    · exact hexDigit_mem _
    · exact hexDigit_mem _
    · exact ih ch h

/-- When every fragment file is readable, `readConfigs` returns the
concatenation of their contents in order. -/
theorem readConfigs_ok (fs : FS) (cs : List String)
    (h : ∀ c ∈ cs, (fs c).isSome) :
    readConfigs fs cs = .ok (filesBytes fs cs) := by
  induction cs with
  | nil => rfl
  | cons c rest ih =>
    have hc : (fs c).isSome := h c (by simp)
    rcases Option.isSome_iff_exists.mp hc with ⟨bytes, hb⟩
    have hrest := ih (fun x hx => h x (by simp [hx]))
    simp [readConfigs, hb, hrest, filesBytes]

/-- When some fragment file is unreadable, `readConfigs` fails. -/
theorem readConfigs_error (fs : FS) (cs : List String)
    (h : ∃ c ∈ cs, fs c = none) :
    ∃ e, readConfigs fs cs = .error e := by
  induction cs with
  | nil => rcases h with ⟨c, hc, _⟩; cases hc
  | cons c rest ih =>
    rcases h with ⟨x, hx, hnone⟩
    rcases List.mem_cons.mp hx with rfl | hx'
    · exact ⟨x, by simp [readConfigs, hnone]⟩
    · cases hc : fs c with
      | none => exact ⟨c, by simp [readConfigs, hc]⟩
      | some bytes =>
        rcases ih ⟨x, hx', hnone⟩ with ⟨e, he⟩
        exact ⟨e, by simp [readConfigs, hc, he]⟩

/-- Claim C1 counterexample: an option set whose fragment list is present
but empty does *not* get an absent fingerprint.  `hashOpts` hashes zero
files, so the fingerprint is the first two bytes of the md5 digest of the
empty byte string (`"d41d"`), and the Builder is named `br.d41d`, not
`br`. -/
theorem C1_fingerprintAbsent_counterexample :
    hashOpts ⟨some [], []⟩ (fun _ => none) = .ok (some "d41d") ∧
    hashOpts ⟨some [], []⟩ (fun _ => none) ≠ .ok none ∧
    (Builder.init ⟨some [], []⟩ (fun _ => none) "images").map Builder.name
      = .ok "br.d41d" := by
  refine ⟨rfl, ?_, rfl⟩
  intro h
  simp [hashOpts, readConfigs] at h

/-- Claim C1 (amended): `hashOpts` returns `None` exactly when the option
set carries no fragment list at all, and then the Builder has the fixed
default name `br`, independent of any other option field; an option set
with a present-but-empty fragment list instead gets the fingerprint
`"d41d"` (md5 of the empty byte string) and the name `br.d41d`. -/
theorem C1_fingerprintAbsent_amended (extra : List (String × String))
    (fs : FS) (imageDir : String) :
    hashOpts ⟨none, extra⟩ fs = .ok none ∧
    (Builder.init ⟨none, extra⟩ fs imageDir).map Builder.name = .ok "br" ∧
    hashOpts ⟨some [], extra⟩ fs = .ok (some "d41d") ∧
    (Builder.init ⟨some [], extra⟩ fs imageDir).map Builder.name
      = .ok ("br." ++ "d41d") :=
  ⟨rfl, rfl, rfl, rfl⟩

/-- Claim C3: `mergeOpts` concatenates the fragment lists, all of `base`
before all of `new`, preserving order, without deduplication (the model is
a pure function, so it performs no I/O and cannot mutate its inputs); and
merging is associative in the stated sense: `merge(merge(A,B),C)` carries
exactly `A.configs ++ B.configs ++ C.configs`. -/
theorem C3_mergeOpts_concat :
    (∀ (base new : Opts) (lb ln : List String),
      base.configs = some lb → new.configs = some ln →
      mergeOpts base new = some ⟨some (lb ++ ln), []⟩) ∧
    (∀ (A B C : Opts) (la lb lc : List String),
      A.configs = some la → B.configs = some lb → C.configs = some lc →
      (mergeOpts A B).bind (fun ab => mergeOpts ab C)
        = some ⟨some (la ++ lb ++ lc), []⟩) := by
  constructor
  · intro base new lb ln hb hn
    simp [mergeOpts, hb, hn]
  · intro A B C la lb lc ha hb hc
    simp [mergeOpts, ha, hb, hc]

/-- Witness for C3 at concrete fragment sets. -/
theorem C3_mergeOpts_concat_witness :
    mergeOpts ⟨some ["x"], []⟩ ⟨some ["y"], []⟩ = some ⟨some ["x", "y"], []⟩ ∧
    (mergeOpts ⟨some ["x"], []⟩ ⟨some ["y"], []⟩).bind
        (fun ab => mergeOpts ab ⟨some ["z"], []⟩)
      = some ⟨some ["x", "y", "z"], []⟩ :=
  ⟨C3_mergeOpts_concat.1 ⟨some ["x"], []⟩ ⟨some ["y"], []⟩ ["x"] ["y"] rfl rfl,
   C3_mergeOpts_concat.2 ⟨some ["x"], []⟩ ⟨some ["y"], []⟩ ⟨some ["z"], []⟩
     ["x"] ["y"] ["z"] rfl rfl rfl⟩

/-- Once inside the body, `stripUart` keeps lines up to (excluding) the
first line matching the completion sentinel. -/
theorem stripUartGo_true (lines : List String) :
    stripUartGo lines true
      = lines.takeWhile (fun l => !(reMatch doneSentinel l)) := by
  induction lines with
  | nil => rfl
  | cons l rest ih =>
    cases h : reMatch doneSentinel l with
    | true => simp [stripUartGo, h, List.takeWhile_cons]
    | false => simp [stripUartGo, h, List.takeWhile_cons, ih]

/-- Before the body, `stripUart` drops lines up to and including the first
line matching the start sentinel, then windows until the completion
sentinel. -/
theorem stripUartGo_false (lines : List String) :
    stripUartGo lines false
      = ((lines.dropWhile (fun l => !(reMatch startSentinel l))).drop 1).takeWhile
          (fun l => !(reMatch doneSentinel l)) := by
  induction lines with
  | nil => rfl
  | cons l rest ih =>
    cases h : reMatch startSentinel l with
    | true => simp [stripUartGo, h, List.dropWhile_cons, stripUartGo_true]
    | false => simp [stripUartGo, h, List.dropWhile_cons, ih]

/-- Claim C9: `stripUart` returns the contiguous sub-sequence strictly
between the first line matching the start sentinel and the first subsequent
line matching the completion sentinel, both boundary lines excluded, and
the empty sequence when no line matches the start sentinel; on the spec's
example it returns exactly `["a", "b"]`. -/
theorem C9_stripUart_window :
    (∀ lines : List String,
      stripUart lines
        = ((lines.dropWhile (fun l => !(reMatch startSentinel l))).drop 1).takeWhile
            (fun l => !(reMatch doneSentinel l))) ∧
    (∀ lines : List String,
      (∀ l ∈ lines, reMatch startSentinel l = false) → stripUart lines = []) ∧
    stripUart ["noise", "launching firesim workload run/command", "a", "b",
        "firesim workload run/command done", "tail"]
      = ["a", "b"] := by
  refine ⟨fun lines => stripUartGo_false lines, ?_, by decide⟩
  intro lines h
  rw [stripUart, stripUartGo_false]
  have hd : lines.dropWhile (fun l => !(reMatch startSentinel l)) = [] :=
    List.dropWhile_eq_nil_iff.mpr (fun x hx => by simp [h x hx])
  simp [hd]

/-- Claim C2: for a present fragment list whose files are all readable,
`hashOpts` returns exactly the first 2 bytes of the single md5 digest fed
with each file's raw bytes in list order with no separators, encoded as a
4-character lowercase-hex string; and when some fragment file cannot be
read, the error propagates as a hard failure (no silent skip, no
fingerprint). -/
theorem C2_hashOpts_digest (opts : Opts) (fs : FS) (cs : List String)
    (hc : opts.configs = some cs) (_hne : cs ≠ []) :
    ((∀ c ∈ cs, (fs c).isSome) →
      hashOpts opts fs
        = .ok (some (bytesToHex ((md5 (filesBytes fs cs)).take 2))) ∧
      (bytesToHex ((md5 (filesBytes fs cs)).take 2)).length = 4 ∧
      ∀ ch ∈ (bytesToHex ((md5 (filesBytes fs cs)).take 2)).data,
        ch ∈ hexDigits) ∧
    ((∃ c ∈ cs, fs c = none) → ∃ e, hashOpts opts fs = .error e) := by
  constructor
  · intro hr
    have hro := readConfigs_ok fs cs hr
    refine ⟨by simp [hashOpts, hc, hro], ?_, ?_⟩
    · have h2 : ((md5 (filesBytes fs cs)).take 2).length = 2 := by
        simp [List.length_take, md5_length]
      show (bytesToHexChars ((md5 (filesBytes fs cs)).take 2)).length = 4
      rw [bytesToHexChars_length, h2]
    · intro ch hch
      exact bytesToHexChars_mem _ ch hch
  · intro hmiss
    rcases readConfigs_error fs cs hmiss with ⟨e, he⟩
    exact ⟨e, by simp [hashOpts, hc, he]⟩

/-- Witness for C2: one readable fragment yields the 4-hex fingerprint;
one unreadable fragment propagates an error. -/
theorem C2_hashOpts_digest_witness :
    hashOpts ⟨some ["frag"], []⟩ (fun _ => some []) = .ok (some "d41d") ∧
    ∃ e, hashOpts ⟨some ["frag"], []⟩ (fun _ => none) = .error e := by
  constructor
  · have h := (C2_hashOpts_digest ⟨some ["frag"], []⟩ (fun _ => some [])
      ["frag"] rfl (by simp)).1 (by simp)
    exact h.1.trans rfl
  · exact (C2_hashOpts_digest ⟨some ["frag"], []⟩ (fun _ => none)
      ["frag"] rfl (by simp)).2 ⟨"frag", by simp, rfl⟩

/-- Claim C4: `buildBaseImage` returns a recoverable `TaskFailed` value
carrying the underlying error exactly when the submodule integrity check
fails with a `SubmoduleError`; every other failure of any step (the check
itself with another error class, configure, the `make` invocation, or the
image relocation) propagates uncaught.  The hypotheses record that the
collaborator steps other than the submodule check never raise
`SubmoduleError`. -/
theorem C4_buildBaseImage_recoverable (s : BuildSteps)
    (hc : ∀ m, s.configureStep ≠ .error (.submoduleError m))
    (hm : ∀ m, s.makeStep ≠ .error (.submoduleError m))
    (hv : ∀ m, s.moveStep ≠ .error (.submoduleError m)) :
    (∀ m, buildBaseImage s = .ok (.taskFailed m) ↔
      s.checkSubmodule = .error (.submoduleError m)) ∧
    (∀ m, s.checkSubmodule = .error (.otherError m) →
      buildBaseImage s = .error (.otherError m)) ∧
    (∀ e, s.checkSubmodule = .ok () → s.configureStep = .error e →
      buildBaseImage s = .error e) ∧
    (∀ e, s.checkSubmodule = .ok () → s.configureStep = .ok () →
      s.makeStep = .error e → buildBaseImage s = .error e) ∧
    (∀ e, s.checkSubmodule = .ok () → s.configureStep = .ok () →
      s.makeStep = .ok () → s.moveStep = .error e →
      buildBaseImage s = .error e) := by
  refine ⟨?_, ?_, ?_, ?_, ?_⟩
  · intro m
    constructor
    · intro h
      cases hcs : s.checkSubmodule with
      | error e =>
        cases e with
        | submoduleError m2 =>
          have hm2 : m2 = m := by
            simp [buildBaseImage, trySteps, hcs] at h
            exact h
          rw [hm2]
        | otherError m2 => simp [buildBaseImage, trySteps, hcs] at h
      | ok u =>
        cases hcf : s.configureStep with
        | error e =>
          cases e with
          | submoduleError m2 => exact absurd hcf (hc m2)
          | otherError m2 => simp [buildBaseImage, trySteps, hcs, hcf] at h
        | ok u2 =>
          cases hmk : s.makeStep with
          | error e =>
            cases e with
            | submoduleError m2 => exact absurd hmk (hm m2)
            | otherError m2 =>
              simp [buildBaseImage, trySteps, hcs, hcf, hmk] at h
          | ok u3 =>
            cases hmv : s.moveStep with
            | error e =>
              cases e with
              | submoduleError m2 => exact absurd hmv (hv m2)
              | otherError m2 =>
                simp [buildBaseImage, trySteps, hcs, hcf, hmk, hmv] at h
            | ok u4 =>
              simp [buildBaseImage, trySteps, hcs, hcf, hmk, hmv] at h
    · intro h
      simp [buildBaseImage, trySteps, h]
  · intro m h
    simp [buildBaseImage, trySteps, h]
  · intro e h1 h2
    cases e with
    | submoduleError m => exact absurd h2 (hc m)
    | otherError m => simp [buildBaseImage, trySteps, h1, h2]
  · intro e h1 h2 h3
    cases e with
    | submoduleError m => exact absurd h3 (hm m)
    | otherError m => simp [buildBaseImage, trySteps, h1, h2, h3]
  · intro e h1 h2 h3 h4
    cases e with
    | submoduleError m => exact absurd h4 (hv m)
    | otherError m => simp [buildBaseImage, trySteps, h1, h2, h3, h4]

/-- Witness for C4: a failing submodule check is reported as a recoverable
task failure; a failing configure step propagates. -/
theorem C4_buildBaseImage_recoverable_witness :
    buildBaseImage ⟨.error (.submoduleError "bad"), .ok (), .ok (), .ok ()⟩
      = .ok (.taskFailed "bad") ∧
    buildBaseImage ⟨.ok (), .error (.otherError "boom"), .ok (), .ok ()⟩
      = .error (.otherError "boom") := by
  constructor
  · exact ((C4_buildBaseImage_recoverable
      ⟨.error (.submoduleError "bad"), .ok (), .ok (), .ok ()⟩
      (fun m h => by simp at h) (fun m h => by simp at h)
      (fun m h => by simp at h)).1 "bad").mpr rfl
  · exact (C4_buildBaseImage_recoverable
      ⟨.ok (), .error (.otherError "boom"), .ok (), .ok ()⟩
      (fun m h => by simp at h) (fun m h => by simp at h)
      (fun m h => by simp at h)).2.2.1 (.otherError "boom") rfl rfl

/-- Reading fragment files depends only on the sequence of file contents:
two file systems and path lists with pointwise-identical lookups read to
the same concatenation. -/
theorem readConfigs_congr (fs1 fs2 : FS) :
    ∀ (cs1 cs2 : List String), cs1.map fs1 = cs2.map fs2 →
      ∀ bs, readConfigs fs1 cs1 = .ok bs → readConfigs fs2 cs2 = .ok bs := by
  intro cs1
  induction cs1 with
  | nil =>
    intro cs2 h bs hok
    cases cs2 with
    | nil => exact hok
    | cons c2 rest2 => simp at h
  | cons c rest ih =>
    intro cs2 h bs hok
    cases cs2 with
    | nil => simp at h
    | cons c2 rest2 =>
      simp only [List.map_cons, List.cons.injEq] at h
      obtain ⟨hfc, hrest⟩ := h
      cases hc1 : fs1 c with
      | none => simp [readConfigs, hc1] at hok
      | some bytes =>
        cases hrc : readConfigs fs1 rest with
        | error e => simp [readConfigs, hc1, hrc] at hok
        | ok bsr =>
          simp only [readConfigs, hc1, hrc] at hok
          have h2 : fs2 c2 = some bytes := by rw [← hfc, hc1]
          have hr2 := ih rest2 hrest bsr hrc
          simp only [readConfigs, h2, hr2]
          exact hok

/-- The fingerprint depends only on the fragment-file contents: identical
`fragContents` give identical successful `hashOpts` results. -/
theorem hashOpts_congr (o1 o2 : Opts) (fs1 fs2 : FS)
    (h : fragContents o1 fs1 = fragContents o2 fs2) :
    ∀ v, hashOpts o1 fs1 = .ok v → hashOpts o2 fs2 = .ok v := by
  intro v hv
  cases h1 : o1.configs with
  | none =>
    cases h2 : o2.configs with
    | none =>
      simp [hashOpts, h1] at hv
      simp [hashOpts, h2, ← hv]
    | some cs2 => simp [fragContents, h1, h2] at h
  | some cs1 =>
    cases h2 : o2.configs with
    | none => simp [fragContents, h1, h2] at h
    | some cs2 =>
      simp only [fragContents, h1, h2, Option.map_some', Option.some.injEq] at h
      cases hrc : readConfigs fs1 cs1 with
      | error e => simp [hashOpts, h1, hrc] at hv
      | ok bs =>
        have hr2 := readConfigs_congr fs1 fs2 cs1 cs2 h bs hrc
        have e1 : hashOpts o1 fs1
            = .ok (some (bytesToHex ((md5 bs).take 2))) := by
          simp [hashOpts, h1, hrc]
        have e2 : hashOpts o2 fs2
            = .ok (some (bytesToHex ((md5 bs).take 2))) := by
          simp [hashOpts, h2, hr2]
        rw [e1] at hv
        rw [e2, hv]

/-- Claim C5: Builder construction is deterministic in the option content —
two Builders built from option sets whose fragment files have byte-identical
contents in identical order, against the same image directory, get the same
name and the same output path `<imageDir>/<name>.img`, and the name is
`br.<fingerprint>` whenever the fingerprint is present. -/
theorem C5_builderDeterministic (o1 o2 : Opts) (fs1 fs2 : FS)
    (imageDir : String) (b1 b2 : Builder)
    (hfrag : fragContents o1 fs1 = fragContents o2 fs2)
    (h1 : Builder.init o1 fs1 imageDir = .ok b1)
    (h2 : Builder.init o2 fs2 imageDir = .ok b2) :
    b1.name = b2.name ∧ b1.outputImg = b2.outputImg ∧
    b1.outputImg = imageDir ++ "/" ++ (b1.name ++ ".img") ∧
    (∀ hx, hashOpts o1 fs1 = .ok (some hx) → b1.name = "br." ++ hx) := by
  cases hh1 : hashOpts o1 fs1 with
  | error e => simp [Builder.init, hh1] at h1
  | ok v =>
    have hh2 : hashOpts o2 fs2 = .ok v :=
      hashOpts_congr o1 o2 fs1 fs2 hfrag v hh1
    simp only [Builder.init, hh1, Except.ok.injEq] at h1
    simp only [Builder.init, hh2, Except.ok.injEq] at h2
    subst h1
    subst h2
    refine ⟨rfl, rfl, rfl, ?_⟩
    intro hx hhx
    injection hhx with hvx
    subst hvx
    rfl

/-- Witness for C5: two option sets with different fragment paths and
different extra fields but identical (empty) file contents produce the same
name `br.d41d` and the same output path. -/
theorem C5_builderDeterministic_witness :
    (Builder.mk ⟨some ["a"], []⟩ "br.d41d" "images/br.d41d.img").name
      = (Builder.mk ⟨some ["b"], [("k", "v")]⟩ "br.d41d"
          "images/br.d41d.img").name ∧
    (Builder.mk ⟨some ["a"], []⟩ "br.d41d" "images/br.d41d.img").outputImg
      = (Builder.mk ⟨some ["b"], [("k", "v")]⟩ "br.d41d"
          "images/br.d41d.img").outputImg ∧
    (Builder.mk ⟨some ["a"], []⟩ "br.d41d" "images/br.d41d.img").outputImg
      = "images" ++ "/"
        ++ ((Builder.mk ⟨some ["a"], []⟩ "br.d41d"
              "images/br.d41d.img").name ++ ".img") ∧
    (∀ hx, hashOpts ⟨some ["a"], []⟩ (fun _ => some []) = .ok (some hx) →
      (Builder.mk ⟨some ["a"], []⟩ "br.d41d" "images/br.d41d.img").name
        = "br." ++ hx) :=
  C5_builderDeterministic ⟨some ["a"], []⟩ ⟨some ["b"], [("k", "v")]⟩
    (fun _ => some []) (fun _ => some []) "images"
    (Builder.mk ⟨some ["a"], []⟩ "br.d41d" "images/br.d41d.img")
    (Builder.mk ⟨some ["b"], [("k", "v")]⟩ "br.d41d" "images/br.d41d.img")
    rfl rfl rfl

/-- Claim C6: `configure()` passes to the external fragment-merge tool
exactly the ordered fragment list: the captured baseline (`brDefConfig`)
first, then the generated toolchain fragment (`brToolKfrag`), then every
fragment from the Builder's options in their stored order. -/
theorem C6_configure_mergeOrder (brDir genDir : String) (tv : ToolVersions)
    (cpuCount : Nat) (opts : Opts) (cs : List String)
    (h : opts.configs = some cs) :
    ∃ evts, configure brDir genDir tv cpuCount opts = some evts ∧
      evts.getLast? = some (Event.runCmd
        ((brDir ++ "/merge_config.sh") :: (genDir ++ "/brDefConfig")
          :: (genDir ++ "/brToolKfrag") :: cs)
        (brDir ++ "/buildroot")) := by
  refine ⟨[Event.writeFile (genDir ++ "/brToolKfrag")
            (toolFragContents tv cpuCount),
          Event.runCmd ["make", "defconfig"] (brDir ++ "/buildroot"),
          Event.copyFile (brDir ++ "/buildroot/.config")
            (genDir ++ "/brDefConfig"),
          Event.runCmd ((brDir ++ "/merge_config.sh")
              :: (genDir ++ "/brDefConfig") :: (genDir ++ "/brToolKfrag") :: cs)
            (brDir ++ "/buildroot")], ?_, rfl⟩
  simp [configure, h]

/-- Witness for C6 at a concrete option set: the merge tool receives
`[defconfig, toolKfrag, c1, c2]` after the script path. -/
theorem C6_configure_mergeOrder_witness :
    ∃ evts, configure "br" "gen" ⟨"5", "10", "10.2.0"⟩ 4
        ⟨some ["c1", "c2"], []⟩ = some evts ∧
      evts.getLast? = some (Event.runCmd
        ["br/merge_config.sh", "gen/brDefConfig", "gen/brToolKfrag",
         "c1", "c2"] "br/buildroot") :=
  C6_configure_mergeOrder "br" "gen" ⟨"5", "10", "10.2.0"⟩ 4
    ⟨some ["c1", "c2"], []⟩ ["c1", "c2"] rfl

/-- Claim C7: after a call that installed a script, calling with
`script = None` leaves the fixed boot-script path present as an empty file
with permission bits `0o755` (tombstone, not absent); and a provided
script is copied to that fixed path with the same permission bits. -/
theorem C7_bootScriptTombstone (ov s : String)
    (args args2 : Option (List String)) (st : OverlayState) :
    ∃ st1 st2 : OverlayState,
      generateBootScriptOverlay ov (some s) args st = .ok st1 ov ∧
      st1.firesimSh = some ⟨s, 0o755⟩ ∧
      generateBootScriptOverlay ov none args2 st1 = .ok st2 ov ∧
      st2.firesimSh = some ⟨"", 0o755⟩ :=
  ⟨⟨some ⟨s, 0o755⟩, some (initTemplate (argsJoin args))⟩,
   ⟨some ⟨"", 0o755⟩, some (initTemplate (argsJoin args2))⟩,
   rfl, rfl, rfl, rfl⟩

/-- Claim C8 counterexample: a call with `script = None` on an overlay
whose boot-script file is absent raises before the init wrapper is
rewritten, so the wrapper is *not* regenerated on that call — its old
contents survive unchanged. -/
theorem C8_initWrapper_counterexample :
    generateBootScriptOverlay "overlay" none (some ["--flag", "x"])
        ⟨none, some "OLD"⟩
      = .fileNotFound ⟨none, some "OLD"⟩ ∧
    (OverlayState.mk none (some "OLD")).s99run
      ≠ some (initTemplate (argsJoin (some ["--flag", "x"]))) :=
  ⟨rfl, by decide⟩

/-- Claim C8 (amended): for every call in which the boot-script update
step succeeds — a script is provided, or a file already exists at the
fixed boot-script path — the init wrapper is regenerated from the template
with its single substitution point replaced by the space-joined `args`
(empty string when `args` is `None`); `["--flag", "x"]` joins to the
literal `"--flag x"`, the generated `start()` body invokes
`/firesim.sh --flag x` between the two sentinels, and the wrapper's
unrecognized-argument branch exits with status 1 (`exit 1`). -/
theorem C8_initWrapperSubstitution (ov : String) (script : Option String)
    (args : Option (List String)) (st : OverlayState)
    (h : script.isSome ∨ st.firesimSh.isSome) :
    (∃ st2, generateBootScriptOverlay ov script args st = .ok st2 ov ∧
      st2.s99run = some (initTemplate (argsJoin args))) ∧
    argsJoin (some ["--flag", "x"]) = "--flag x" ∧
    containsText (initTemplate "--flag x")
      "echo \"launching firesim workload run/command\" && /firesim.sh --flag x && echo \"firesim workload run/command done\""
      = true ∧
    containsText (initTemplate "--flag x") "exit 1" = true := by
  refine ⟨?_, by decide, by decide, by decide⟩
  cases script with
  | some s =>
    exact ⟨⟨some ⟨s, 0o755⟩, some (initTemplate (argsJoin args))⟩, rfl, rfl⟩
  | none =>
    rcases h with h | h
    · simp at h
    · rcases Option.isSome_iff_exists.mp h with ⟨f, hf⟩
      exact ⟨⟨some ⟨"", 0o755⟩, some (initTemplate (argsJoin args))⟩,
        by simp [generateBootScriptOverlay, writeS99run, hf], rfl⟩

/-- Witness for C8 (amended) at a concrete call with a provided script. -/
theorem C8_initWrapperSubstitution_witness :
    ((some "S" : Option String).isSome
      ∨ (OverlayState.mk none none).firesimSh.isSome) ∧
    ((∃ st2, generateBootScriptOverlay "overlay" (some "S")
          (some ["--flag", "x"]) ⟨none, none⟩ = .ok st2 "overlay" ∧
        st2.s99run = some (initTemplate (argsJoin (some ["--flag", "x"])))) ∧
      argsJoin (some ["--flag", "x"]) = "--flag x" ∧
      containsText (initTemplate "--flag x")
        "echo \"launching firesim workload run/command\" && /firesim.sh --flag x && echo \"firesim workload run/command done\""
        = true ∧
      containsText (initTemplate "--flag x") "exit 1" = true) :=
  ⟨Or.inl rfl,
   C8_initWrapperSubstitution "overlay" (some "S") (some ["--flag", "x"])
     ⟨none, none⟩ (Or.inl rfl)⟩

/-- Claim C10: calling with `script = None` when no file exists at the
fixed boot-script path makes the unguarded `unlink()` raise
`FileNotFoundError`; the call fails with the overlay state unchanged —
neither the tombstone placeholder nor the init wrapper is written. -/
theorem C10_unlinkMissing (ov : String) (args : Option (List String))
    (st : OverlayState) (h : st.firesimSh = none) :
    generateBootScriptOverlay ov none args st = .fileNotFound st := by
  simp [generateBootScriptOverlay, h]

/-- Witness for C10: a concrete overlay with no boot-script file. -/
theorem C10_unlinkMissing_witness :
    (OverlayState.mk none (some "OLD")).firesimSh = none ∧
    generateBootScriptOverlay "overlay" none none ⟨none, some "OLD"⟩
      = .fileNotFound ⟨none, some "OLD"⟩ :=
  ⟨rfl, C10_unlinkMissing "overlay" none ⟨none, some "OLD"⟩ rfl⟩
